import Mathlib

/-!
Shallow embedding of `packages/rich-text/src/register-format-type.js`:
registration and validation of rich-text format types.

The registry store (`core/rich-text` selectors and actions) and the
`memize` helper are external collaborators whose code is not part of this
file's source; they are modelled from the specification's description of
their interfaces, as marked on the corresponding definitions.
-/

/-- JavaScript values as far as the registration code inspects them:
strings, `null`, `undefined`, and anything else (numbers, objects,
functions), which the validation code only distinguishes via `typeof`. -/
inductive JVal where
  | str (s : String)
  | null
  | undef
  | other
deriving DecidableEq, Repr

/-- JavaScript string coercion `String(v)` for the values above, as used
when a `JVal` is interpolated into a message or fed to a regex test. -/
def jstr : JVal → String
  | .str s => s
  | .null => "null"
  | .undef => "undefined"
  | .other => "[object Object]"

/-- The check `typeof v === 'string'`. -/
def isJStr : JVal → Bool
  | .str _ => true
  | _ => false

/-- ASCII lowercase letter, the class `[a-z]`. -/
def isLowerAZ (c : Char) : Bool := 'a' ≤ c && c ≤ 'z'

/-- ASCII uppercase letter, the class `[A-Z]`. -/
def isUpperAZ (c : Char) : Bool := 'A' ≤ c && c ≤ 'Z'

/-- ASCII digit, the class `[0-9]`. -/
def isDigit09 (c : Char) : Bool := '0' ≤ c && c ≤ '9'

/-- The character class `[a-z0-9-]` from the format-name regex. -/
def isSlugChar (c : Char) : Bool := isLowerAZ c || isDigit09 c || c == '-'

/-- One segment `[a-z][a-z0-9-]*` of the format-name regex. -/
def segmentOk : List Char → Bool
  | [] => false
  | c :: rest => isLowerAZ c && rest.all isSlugChar

/-- Split a character list at its first `/`, returning the part before it
and, when a `/` exists, the part after it. -/
def splitSlash : List Char → List Char × Option (List Char)
  | [] => ([], none)
  | c :: rest =>
    if c = '/' then ([], some rest)
    else
      let p := splitSlash rest
      (c :: p.1, p.2)

/-- The test `/^[a-z][a-z0-9-]*\/[a-z][a-z0-9-]*$/.test(s)` from the
source: a namespace segment, a slash, and a slug segment.  Both segments
exclude `/`, so the string must contain exactly one slash. -/
def testNameRegex (s : String) : Bool :=
  match splitSlash s.data with
  | (ns, some slug) => segmentOk ns && segmentOk slug
  | (_, none) => false

/-- The character class `[_a-zA-Z]` from the class-name regex. -/
def isClassHead (c : Char) : Bool := c == '_' || isLowerAZ c || isUpperAZ c

/-- The character class `[a-zA-Z0-9-]` from the class-name regex. -/
def isClassTail (c : Char) : Bool :=
  isLowerAZ c || isUpperAZ c || isDigit09 c || c == '-'

/-- Matches `[_a-zA-Z]*[a-zA-Z0-9-]*`: some head characters followed by
some tail characters. -/
def headStarTailStar : List Char → Bool
  | [] => true
  | c :: rest =>
    (isClassHead c && headStarTailStar rest) || (c :: rest).all isClassTail

/-- The test `/^[_a-zA-Z]+[a-zA-Z0-9-]*$/.test(s)` from the source.  Note
that in the source this regex is applied to `settings.className` even when
it is `null`; JavaScript coerces `null` to the string `"null"`, which the
pattern accepts. -/
def testClassNameRegex (s : String) : Bool :=
  match s.data with
  | [] => false
  | c :: rest => isClassHead c && headStarTailStar rest

/-- The settings object passed by a caller of `registerFormatType`; each
field may be absent (`none`).  The two `__experimental*` hooks are only
tested for truthiness by the code modelled here, so they are booleans. -/
structure SettingsIn where
  name : Option JVal := none
  tagName : Option JVal := none
  className : Option JVal := none
  title : Option JVal := none
  keywords : Option (List String) := none
  __experimentalCreatePrepareEditableTree : Bool := false
  __experimentalCreateOnChangeEditableValue : Bool := false
deriving DecidableEq, Repr

/-- The merged settings object `{ name, ...settings }`.  `name`,
`tagName` and `className` are always read as plain values (an absent
field reads as `undefined`); `title` and `keywords` keep their presence
because the source tests `'title' in settings` / `'keywords' in
settings`. -/
structure Settings where
  name : JVal
  tagName : JVal
  className : JVal
  title : Option JVal
  keywords : Option (List String)
  __experimentalCreatePrepareEditableTree : Bool
  __experimentalCreateOnChangeEditableValue : Bool
deriving DecidableEq, Repr

/-- `settings = { name, ...settings }`: the spread runs after the literal
`name`, so a `name` field inside the caller's settings object overrides
the positional argument. -/
def mergeSettings (nameArg : JVal) (s : SettingsIn) : Settings :=
  { name := s.name.getD nameArg
    tagName := s.tagName.getD JVal.undef
    className := s.className.getD JVal.undef
    title := s.title
    keywords := s.keywords
    __experimentalCreatePrepareEditableTree :=
      s.__experimentalCreatePrepareEditableTree
    __experimentalCreateOnChangeEditableValue :=
      s.__experimentalCreateOnChangeEditableValue }

/-- Modelled from the spec: the registry is an "external key-value store
keyed by descriptor `name`"; it is held here as the list of accepted
descriptors in registration order. -/
abbrev Registry := List Settings

/-- Modelled from the spec: the registry selector `getFormatType(name)`,
a key lookup by descriptor name. -/
def getFormatType (reg : Registry) (nm : JVal) : Option Settings :=
  reg.find? fun ft => decide (ft.name = nm)

/-- Modelled from the spec: the registry selector
`getFormatTypeForBareElement(tagName)` returns a registered format type
identified solely by that tag name, with no distinguishing class
(`className` null). -/
def getFormatTypeForBareElement (reg : Registry) (tag : JVal) : Option Settings :=
  reg.find? fun ft => decide (ft.tagName = tag) && decide (ft.className = JVal.null)

/-- Modelled from the spec: the registry selector
`getFormatTypeForClassName(className)` returns a registered format type
claiming exactly that class name. -/
def getFormatTypeForClassName (reg : Registry) (cn : JVal) : Option Settings :=
  reg.find? fun ft => decide (ft.className = cn)

/-- The eleven validation rules of `registerFormatType`, in the order the
source checks them. -/
inductive Rule where
  | nameString
  | namePattern
  | duplicateName
  | tagNameString
  | classNameType
  | classNamePattern
  | bareElementConflict
  | classNameConflict
  | titleMissing
  | keywordsLimit
  | titleString
deriving DecidableEq, Repr

/-- Whether a given validation rule rejects the merged settings against
the current registry, each case transcribing the corresponding guard of
the source's `if` chain. -/
def ruleFails (reg : Registry) (s : Settings) : Rule → Bool
  | .nameString => !isJStr s.name
  | .namePattern => !testNameRegex (jstr s.name)
  | .duplicateName => (getFormatType reg s.name).isSome
  | .tagNameString => !isJStr s.tagName || decide (s.tagName = JVal.str "")
  | .classNameType =>
      (!isJStr s.className || decide (s.className = JVal.str "")) &&
        !decide (s.className = JVal.null)
  | .classNamePattern => !testClassNameRegex (jstr s.className)
  | .bareElementConflict =>
      decide (s.className = JVal.null) &&
        (getFormatTypeForBareElement reg s.tagName).isSome
  | .classNameConflict =>
      !decide (s.className = JVal.null) &&
        (getFormatTypeForClassName reg s.className).isSome
  | .titleMissing => s.title.isNone || decide (s.title = some (JVal.str ""))
  | .keywordsLimit =>
      match s.keywords with
      | some ks => decide (ks.length > 3)
      | none => false
  | .titleString =>
      match s.title with
      | some (.str _) => false
      | _ => true

/-- The source's validation order: rules 1 through 11 of the
specification, exactly the order of the `if` chain. -/
def ruleOrder : List Rule :=
  [.nameString, .namePattern, .duplicateName, .tagNameString,
   .classNameType, .classNamePattern, .bareElementConflict,
   .classNameConflict, .titleMissing, .keywordsLimit, .titleString]

/-- The diagnostic written to `window.console.error` when a rule fails. -/
def errorMessage (reg : Registry) (s : Settings) : Rule → String
  | .nameString => "Format names must be strings."
  | .namePattern =>
      "Format names must contain a namespace prefix, include only lowercase alphanumeric characters or dashes, and start with a letter. Example: my-plugin/my-custom-format"
  | .duplicateName =>
      "Format \"" ++ jstr s.name ++ "\" is already registered."
  | .tagNameString => "Format tag names must be a string."
  | .classNameType =>
      "Format class names must be a string, or null to handle bare elements."
  | .classNamePattern =>
      "A class name must begin with a letter, followed by any number of hyphens, letters, or numbers."
  | .bareElementConflict =>
      "Format \"" ++
        (match getFormatTypeForBareElement reg s.tagName with
         | some ft => jstr ft.name
         | none => "") ++
        "\" is already registered to handle bare tag name \"" ++
        jstr s.tagName ++ "\"."
  | .classNameConflict =>
      "Format \"" ++
        (match getFormatTypeForClassName reg s.className with
         | some ft => jstr ft.name
         | none => "") ++
        "\" is already registered to handle class name \"" ++
        jstr s.className ++ "\"."
  | .titleMissing =>
      "The format \"" ++ jstr s.name ++ "\" must have a title."
  | .keywordsLimit =>
      "The format \"" ++ jstr s.name ++ "\" can have a maximum of 3 keywords."
  | .titleString => "Format titles must be strings."

/-- State of one `memize`d function-stack builder: a heap of the arrays it
has allocated (index = array identity) and its cache, mapping an argument
pair (identity of `previousStack`, identity of `newFunction`) to the
identity of the memoized result array. -/
structure MemoState where
  heap : List (List Nat)
  cache : List ((Option Nat × Nat) × Nat)
deriving DecidableEq, Repr

/-- A fresh builder state, as created by `memize( ... )`. -/
def initMemo : MemoState := { heap := [], cache := [] }

/-- Contents of the array a reference denotes; `none` stands for an
`undefined` `previousStack`, which the source defaults to the shared
`EMPTY_ARRAY`. -/
def contentsOf (st : MemoState) : Option Nat → List Nat
  | none => []
  | some i => st.heap.getD i []

/-- Lookup in the builder's cache by exact argument pair, mirroring
memize's strict-equality comparison of arguments. -/
def cacheLookup : List ((Option Nat × Nat) × Nat) → Option Nat × Nat → Option Nat
  | [], _ => none
  | (k, v) :: rest, q => if k = q then some v else cacheLookup rest q

/-- Modelled from the spec: the `memize`d function-stack builder
`( previousStack = EMPTY_ARRAY, newFunction ) => [ ...previousStack,
newFunction ]`.  On a cache hit the previously allocated array is
returned unchanged; on a miss a new array holding the concatenation is
allocated and one cache line is added for the argument pair. -/
def getFunctionStackMemoized (st : MemoState) (prev : Option Nat) (f : Nat) :
    Nat × MemoState :=
  match cacheLookup st.cache (prev, f) with
  | some id => (id, st)
  | none =>
      ( st.heap.length,
        { heap := st.heap ++ [contentsOf st prev ++ [f]]
          cache := st.cache ++ [((prev, f), st.heap.length)] } )

/-- Process state touched by `registerFormatType`: the registry store, the
console-error log, the memoization caches created so far (one per call
that reaches the `memize(...)` line), and the namespaces of installed
`experimentalRichText` filters. -/
structure Store where
  registry : Registry
  log : List String
  caches : List MemoState
  filters : List JVal
deriving DecidableEq, Repr

/-- A store with nothing registered. -/
def emptyStore : Store := { registry := [], log := [], caches := [], filters := [] }

/-- `registerFormatType( name, settings )`.  The settings are merged with
the positional name, the eleven validation rules run in source order, and
the first failing rule logs its diagnostic and returns `undefined` with
no write to the store.  On success the descriptor is dispatched to the
registry, a fresh `memize` cache is created for this call's function-stack
builder, and, when `__experimentalCreatePrepareEditableTree` is set, an
`experimentalRichText` filter is added under the positional `name`
argument. -/
def registerFormatType (nameArg : JVal) (sIn : SettingsIn) (st : Store) :
    Option Settings × Store :=
  let s := mergeSettings nameArg sIn
  match ruleOrder.find? (ruleFails st.registry s) with
  | some r =>
      (none, { st with log := st.log ++ [errorMessage st.registry s r] })
  | none =>
      ( some s,
        { registry := st.registry ++ [s]
          log := st.log
          caches := st.caches ++ [initMemo]
          filters :=
            if s.__experimentalCreatePrepareEditableTree then
              st.filters ++ [nameArg]
            else
              st.filters } )

/-! ## Helper lemmas -/

theorem mem_ruleOrder (r : Rule) : r ∈ ruleOrder := by
  cases r <;> simp [ruleOrder]

theorem registerFormatType_of_none {nameArg : JVal} {sIn : SettingsIn} {st : Store}
    (h : ruleOrder.find? (ruleFails st.registry (mergeSettings nameArg sIn)) = none) :
    registerFormatType nameArg sIn st =
      ( some (mergeSettings nameArg sIn),
        { registry := st.registry ++ [mergeSettings nameArg sIn]
          log := st.log
          caches := st.caches ++ [initMemo]
          filters :=
            if (mergeSettings nameArg sIn).__experimentalCreatePrepareEditableTree then
              st.filters ++ [nameArg]
            else
              st.filters } ) := by
  simp only [registerFormatType, h]

theorem registerFormatType_of_some {nameArg : JVal} {sIn : SettingsIn} {st : Store} {r : Rule}
    (h : ruleOrder.find? (ruleFails st.registry (mergeSettings nameArg sIn)) = some r) :
    registerFormatType nameArg sIn st =
      ( none,
        { st with
            log := st.log ++
              [errorMessage st.registry (mergeSettings nameArg sIn) r] } ) := by
  simp only [registerFormatType, h]

theorem register_isSome_rules {nameArg : JVal} {sIn : SettingsIn} {st : Store}
    (h : (registerFormatType nameArg sIn st).1.isSome) (r : Rule) :
    ruleFails st.registry (mergeSettings nameArg sIn) r = false := by
  rcases hf : ruleOrder.find? (ruleFails st.registry (mergeSettings nameArg sIn)) with _ | r'
  · exact Bool.eq_false_iff.mpr
      (List.find?_eq_none.mp hf r (mem_ruleOrder r))
  · rw [registerFormatType_of_some hf] at h
    simp at h

/-! ## Claim theorems -/

/-- C2: whenever some validation rule fails for the merged settings, the
call returns `undefined`, appends exactly one diagnostic to the log, and
leaves registry, caches and filters unchanged; the reported rule is the
first failing rule in the source's stated order.  The embedding is a
total function, so no exception is raised on this path. -/
theorem validation_failure_aborts (nameArg : JVal) (sIn : SettingsIn) (st : Store)
    (h : ∃ r : Rule, ruleFails st.registry (mergeSettings nameArg sIn) r = true) :
    ∃ r : Rule,
      ruleFails st.registry (mergeSettings nameArg sIn) r = true ∧
      (∃ l₁ l₂, ruleOrder = l₁ ++ r :: l₂ ∧
        ∀ r' ∈ l₁, ruleFails st.registry (mergeSettings nameArg sIn) r' = false) ∧
      registerFormatType nameArg sIn st =
        ( none,
          { st with
              log := st.log ++
                [errorMessage st.registry (mergeSettings nameArg sIn) r] } ) := by
  obtain ⟨r0, hr0⟩ := h
  have hsome :
      (ruleOrder.find? (ruleFails st.registry (mergeSettings nameArg sIn))).isSome := by
    rw [List.find?_isSome]
    exact ⟨r0, mem_ruleOrder r0, hr0⟩
  obtain ⟨r, hr⟩ := Option.isSome_iff_exists.mp hsome
  obtain ⟨hfail, l₁, l₂, heq, hbefore⟩ := List.find?_eq_some.mp hr
  exact ⟨r, hfail, ⟨l₁, l₂, heq, fun r' h' => by simpa using hbefore r' h'⟩,
    registerFormatType_of_some hr⟩

/-- Witness for `validation_failure_aborts` at a concrete invalid call. -/
theorem validation_failure_aborts_witness :
    ∃ r : Rule,
      ruleFails emptyStore.registry (mergeSettings (JVal.str "BadName") {}) r = true ∧
      (∃ l₁ l₂, ruleOrder = l₁ ++ r :: l₂ ∧
        ∀ r' ∈ l₁,
          ruleFails emptyStore.registry (mergeSettings (JVal.str "BadName") {}) r' = false) ∧
      registerFormatType (JVal.str "BadName") {} emptyStore =
        ( none,
          { emptyStore with
              log := emptyStore.log ++
                [errorMessage emptyStore.registry
                  (mergeSettings (JVal.str "BadName") {}) r] } ) :=
  validation_failure_aborts (JVal.str "BadName") {} emptyStore
    ⟨Rule.namePattern, by decide⟩

/-- C3: a descriptor whose merged name is a string that does not match the
namespace/slug pattern is rejected: the call returns `undefined` and the
registry is left unchanged. -/
theorem invalid_name_rejected (nameArg : JVal) (sIn : SettingsIn) (st : Store) (nm : String)
    (hname : (mergeSettings nameArg sIn).name = JVal.str nm)
    (hpat : testNameRegex nm = false) :
    (registerFormatType nameArg sIn st).1 = none ∧
    (registerFormatType nameArg sIn st).2.registry = st.registry := by
  have hfind : ruleOrder.find? (ruleFails st.registry (mergeSettings nameArg sIn))
      = some Rule.namePattern := by
    simp [ruleOrder, List.find?, ruleFails, hname, isJStr, jstr, hpat]
  rw [registerFormatType_of_some hfind]
  exact ⟨rfl, rfl⟩

/-- Witness for `invalid_name_rejected` at a concrete slash-free name. -/
theorem invalid_name_rejected_witness :
    (registerFormatType (JVal.str "noslash") {} emptyStore).1 = none ∧
    (registerFormatType (JVal.str "noslash") {} emptyStore).2.registry =
      emptyStore.registry :=
  invalid_name_rejected (JVal.str "noslash") {} emptyStore "noslash" rfl (by decide)

/-- C1: a call `registerFormatType(name, settingsWithoutName)` whose name
matches the namespace/slug pattern and is unregistered, whose tag name is
a non-empty string, whose class name is either a pattern-valid string with
no class-name conflict or `null` with no bare-element conflict, whose
title is a non-empty string, and whose keywords (when present) number at
most 3, returns the input settings merged with the name, and that same
descriptor is appended to the registry. -/
theorem register_success_spec (nm : String) (sIn : SettingsIn) (st : Store)
    (hnoname : sIn.name = none)
    (hpat : testNameRegex nm = true)
    (hdup : getFormatType st.registry (JVal.str nm) = none)
    (htag : ∃ t, sIn.tagName = some (JVal.str t) ∧ t ≠ "")
    (hclass :
      (∃ c, sIn.className = some (JVal.str c) ∧ testClassNameRegex c = true ∧
        getFormatTypeForClassName st.registry (JVal.str c) = none) ∨
      (sIn.className = some JVal.null ∧
        getFormatTypeForBareElement st.registry
          (mergeSettings (JVal.str nm) sIn).tagName = none))
    (htitle : ∃ t, sIn.title = some (JVal.str t) ∧ t ≠ "")
    (hkw : ∀ ks, sIn.keywords = some ks → ks.length ≤ 3) :
    (registerFormatType (JVal.str nm) sIn st).1 =
      some (mergeSettings (JVal.str nm) sIn) ∧
    (registerFormatType (JVal.str nm) sIn st).2.registry =
      st.registry ++ [mergeSettings (JVal.str nm) sIn] := by
  obtain ⟨t, htag1, htag2⟩ := htag
  obtain ⟨ttl, htl1, htl2⟩ := htitle
  have hname : (mergeSettings (JVal.str nm) sIn).name = JVal.str nm := by
    simp [mergeSettings, hnoname]
  have htagv : (mergeSettings (JVal.str nm) sIn).tagName = JVal.str t := by
    simp [mergeSettings, htag1]
  have htitlev : (mergeSettings (JVal.str nm) sIn).title = some (JVal.str ttl) := by
    simp [mergeSettings, htl1]
  have hfind :
      ruleOrder.find? (ruleFails st.registry (mergeSettings (JVal.str nm) sIn))
        = none := by
    rw [List.find?_eq_none]
    intro r hr
    cases r
    case nameString => simp [ruleFails, hname, isJStr]
    case namePattern => simp [ruleFails, hname, jstr, hpat]
    case duplicateName => simp [ruleFails, hname, hdup]
    case tagNameString => simp [ruleFails, htagv, isJStr, htag2]
    case classNameType =>
      rcases hclass with ⟨c, hc1, hc2, _⟩ | ⟨hc1, _⟩
      · have hclv : (mergeSettings (JVal.str nm) sIn).className = JVal.str c := by
          simp [mergeSettings, hc1]
        have hne : c ≠ "" := by
          intro he
          rw [he] at hc2
          exact absurd hc2 (by decide)
        simp [ruleFails, hclv, isJStr, hne]
      · have hclv : (mergeSettings (JVal.str nm) sIn).className = JVal.null := by
          simp [mergeSettings, hc1]
        simp [ruleFails, hclv]
    case classNamePattern =>
      rcases hclass with ⟨c, hc1, hc2, _⟩ | ⟨hc1, _⟩
      · have hclv : (mergeSettings (JVal.str nm) sIn).className = JVal.str c := by
          simp [mergeSettings, hc1]
        simp [ruleFails, hclv, jstr, hc2]
      · have hclv : (mergeSettings (JVal.str nm) sIn).className = JVal.null := by
          simp [mergeSettings, hc1]
        simp [ruleFails, hclv, jstr]
        decide
    case bareElementConflict =>
      rcases hclass with ⟨c, hc1, _, _⟩ | ⟨hc1, hbare⟩
      · have hclv : (mergeSettings (JVal.str nm) sIn).className = JVal.str c := by
          simp [mergeSettings, hc1]
        simp [ruleFails, hclv]
      · have hclv : (mergeSettings (JVal.str nm) sIn).className = JVal.null := by
          simp [mergeSettings, hc1]
        simp [ruleFails, hclv, hbare]
    case classNameConflict =>
      rcases hclass with ⟨c, hc1, _, hcc⟩ | ⟨hc1, _⟩
      · have hclv : (mergeSettings (JVal.str nm) sIn).className = JVal.str c := by
          simp [mergeSettings, hc1]
        simp [ruleFails, hclv, hcc]
      · have hclv : (mergeSettings (JVal.str nm) sIn).className = JVal.null := by
          simp [mergeSettings, hc1]
        simp [ruleFails, hclv]
    case titleMissing => simp [ruleFails, htitlev, htl2]
    case keywordsLimit =>
      rcases hk : sIn.keywords with _ | ks
      · have : (mergeSettings (JVal.str nm) sIn).keywords = none := by
          simp [mergeSettings, hk]
        simp [ruleFails, this]
      · have hv : (mergeSettings (JVal.str nm) sIn).keywords = some ks := by
          simp [mergeSettings, hk]
        have hlen := hkw ks hk
        simp [ruleFails, hv]
        omega
    case titleString => simp [ruleFails, htitlev]
  rw [registerFormatType_of_none hfind]
  exact ⟨rfl, rfl⟩

/-- Witness for `register_success_spec`: the spec's example registration
of `my-plugin/highlight` on an empty store. -/
theorem register_success_spec_witness :
    (registerFormatType (JVal.str "my-plugin/highlight")
        { tagName := some (JVal.str "mark")
          className := some (JVal.str "my-highlight")
          title := some (JVal.str "Highlight") } emptyStore).1 =
      some (mergeSettings (JVal.str "my-plugin/highlight")
        { tagName := some (JVal.str "mark")
          className := some (JVal.str "my-highlight")
          title := some (JVal.str "Highlight") }) ∧
    (registerFormatType (JVal.str "my-plugin/highlight")
        { tagName := some (JVal.str "mark")
          className := some (JVal.str "my-highlight")
          title := some (JVal.str "Highlight") } emptyStore).2.registry =
      emptyStore.registry ++
        [mergeSettings (JVal.str "my-plugin/highlight")
          { tagName := some (JVal.str "mark")
            className := some (JVal.str "my-highlight")
            title := some (JVal.str "Highlight") }] :=
  register_success_spec "my-plugin/highlight"
    { tagName := some (JVal.str "mark")
      className := some (JVal.str "my-highlight")
      title := some (JVal.str "Highlight") } emptyStore
    rfl (by decide) rfl ⟨"mark", rfl, by decide⟩
    (Or.inl ⟨"my-highlight", rfl, by decide, rfl⟩)
    ⟨"Highlight", rfl, by decide⟩ (fun ks h => by cases h)

theorem isJStr_iff {v : JVal} : isJStr v = true ↔ ∃ s, v = JVal.str s := by
  cases v <;> simp [isJStr]

/-- C4: once a first registration under some merged name has succeeded, a
second call whose merged name is the same returns `undefined`, leaves the
registry unchanged, and the registry still yields exactly the first
descriptor under that name. -/
theorem duplicate_registration_rejected (n1 n2 : JVal) (s1 s2 : SettingsIn) (st : Store)
    (hsame : (mergeSettings n2 s2).name = (mergeSettings n1 s1).name)
    (hsucc : (registerFormatType n1 s1 st).1.isSome) :
    (registerFormatType n2 s2 (registerFormatType n1 s1 st).2).1 = none ∧
    (registerFormatType n2 s2 (registerFormatType n1 s1 st).2).2.registry =
      (registerFormatType n1 s1 st).2.registry ∧
    getFormatType
        (registerFormatType n2 s2 (registerFormatType n1 s1 st).2).2.registry
        (mergeSettings n1 s1).name = some (mergeSettings n1 s1) := by
  have hfind1 :
      ruleOrder.find? (ruleFails st.registry (mergeSettings n1 s1)) = none := by
    rcases hf : ruleOrder.find? (ruleFails st.registry (mergeSettings n1 s1)) with _ | r
    · rfl
    · rw [registerFormatType_of_some hf] at hsucc
      simp at hsucc
  have hns := register_isSome_rules hsucc Rule.nameString
  have hnp := register_isSome_rules hsucc Rule.namePattern
  have hdup := register_isSome_rules hsucc Rule.duplicateName
  simp only [ruleFails, Bool.not_eq_false'] at hns hnp
  obtain ⟨nm, hnm⟩ := isJStr_iff.mp hns
  rw [hnm] at hnp
  simp only [jstr] at hnp
  have hdup' : getFormatType st.registry (mergeSettings n1 s1).name = none := by
    simp only [ruleFails] at hdup
    rcases h : getFormatType st.registry (mergeSettings n1 s1).name with _ | v
    · rfl
    · rw [h] at hdup
      simp at hdup
  have hreg1 : (registerFormatType n1 s1 st).2.registry =
      st.registry ++ [mergeSettings n1 s1] := by
    rw [registerFormatType_of_none hfind1]
  have hgot : getFormatType (registerFormatType n1 s1 st).2.registry
      (mergeSettings n1 s1).name = some (mergeSettings n1 s1) := by
    rw [hreg1]
    unfold getFormatType at hdup' ⊢
    rw [List.find?_append, hdup']
    simp
  have hfind2 :
      ruleOrder.find?
        (ruleFails (registerFormatType n1 s1 st).2.registry (mergeSettings n2 s2))
        = some Rule.duplicateName := by
    rw [hnm] at hgot hsame
    simp [ruleOrder, List.find?, ruleFails, hsame, isJStr, jstr, hnp, hgot]
  refine ⟨?_, ?_, ?_⟩
  · rw [registerFormatType_of_some hfind2]
  · rw [registerFormatType_of_some hfind2]
  · rw [registerFormatType_of_some hfind2]
    exact hgot

/-- Witness for `duplicate_registration_rejected`: registering
`my-plugin/highlight` twice on an empty store. -/
theorem duplicate_registration_rejected_witness :
    (registerFormatType (JVal.str "my-plugin/highlight")
        { tagName := some (JVal.str "em"), className := some JVal.null,
          title := some (JVal.str "Other") }
        (registerFormatType (JVal.str "my-plugin/highlight")
          { tagName := some (JVal.str "mark"),
            className := some (JVal.str "my-highlight"),
            title := some (JVal.str "Highlight") } emptyStore).2).1 = none ∧
    (registerFormatType (JVal.str "my-plugin/highlight")
        { tagName := some (JVal.str "em"), className := some JVal.null,
          title := some (JVal.str "Other") }
        (registerFormatType (JVal.str "my-plugin/highlight")
          { tagName := some (JVal.str "mark"),
            className := some (JVal.str "my-highlight"),
            title := some (JVal.str "Highlight") } emptyStore).2).2.registry =
      (registerFormatType (JVal.str "my-plugin/highlight")
        { tagName := some (JVal.str "mark"),
          className := some (JVal.str "my-highlight"),
          title := some (JVal.str "Highlight") } emptyStore).2.registry ∧
    getFormatType
        (registerFormatType (JVal.str "my-plugin/highlight")
          { tagName := some (JVal.str "em"), className := some JVal.null,
            title := some (JVal.str "Other") }
          (registerFormatType (JVal.str "my-plugin/highlight")
            { tagName := some (JVal.str "mark"),
              className := some (JVal.str "my-highlight"),
              title := some (JVal.str "Highlight") } emptyStore).2).2.registry
        (mergeSettings (JVal.str "my-plugin/highlight")
          { tagName := some (JVal.str "mark"),
            className := some (JVal.str "my-highlight"),
            title := some (JVal.str "Highlight") }).name =
      some (mergeSettings (JVal.str "my-plugin/highlight")
        { tagName := some (JVal.str "mark"),
          className := some (JVal.str "my-highlight"),
          title := some (JVal.str "Highlight") }) :=
  duplicate_registration_rejected (JVal.str "my-plugin/highlight")
    (JVal.str "my-plugin/highlight")
    { tagName := some (JVal.str "mark"),
      className := some (JVal.str "my-highlight"),
      title := some (JVal.str "Highlight") }
    { tagName := some (JVal.str "em"), className := some JVal.null,
      title := some (JVal.str "Other") }
    emptyStore rfl (by decide)

/-- A registered bare-element format type (tag `mark`, null class). -/
def sampleBareFormat : Settings :=
  { name := JVal.str "my-plugin/bare", tagName := JVal.str "mark",
    className := JVal.null, title := some (JVal.str "Bare"),
    keywords := none, __experimentalCreatePrepareEditableTree := false,
    __experimentalCreateOnChangeEditableValue := false }

/-- A store whose registry already holds `sampleBareFormat`. -/
def sampleBareStore : Store :=
  { registry := [sampleBareFormat], log := [], caches := [], filters := [] }

/-- C5: for a descriptor whose merged class name is the null sentinel,
registration returns `undefined` whenever some already registered
descriptor claims the same tag name as a bare-element handler; and the
bare-element uniqueness check passes whenever every registered descriptor
uses a different tag name or a real class name. -/
theorem bare_element_uniqueness (nameArg : JVal) (sIn : SettingsIn) (st : Store)
    (hnull : (mergeSettings nameArg sIn).className = JVal.null) :
    ((∃ ft ∈ st.registry,
        ft.tagName = (mergeSettings nameArg sIn).tagName ∧
          ft.className = JVal.null) →
      (registerFormatType nameArg sIn st).1 = none) ∧
    ((∀ ft ∈ st.registry,
        ft.tagName ≠ (mergeSettings nameArg sIn).tagName ∨
          ft.className ≠ JVal.null) →
      ruleFails st.registry (mergeSettings nameArg sIn)
        Rule.bareElementConflict = false) := by
  constructor
  · intro hconf
    rcases hf : ruleOrder.find?
        (ruleFails st.registry (mergeSettings nameArg sIn)) with _ | r
    · exfalso
      have hbare := List.find?_eq_none.mp hf Rule.bareElementConflict (mem_ruleOrder _)
      obtain ⟨ft, hmem, ht, hc⟩ := hconf
      have hsome : (getFormatTypeForBareElement st.registry
          (mergeSettings nameArg sIn).tagName).isSome := by
        unfold getFormatTypeForBareElement
        rw [List.find?_isSome]
        exact ⟨ft, hmem, by simp [ht, hc]⟩
      simp [ruleFails, hnull, hsome] at hbare
    · rw [registerFormatType_of_some hf]
  · intro hall
    have hnone : getFormatTypeForBareElement st.registry
        (mergeSettings nameArg sIn).tagName = none := by
      unfold getFormatTypeForBareElement
      rw [List.find?_eq_none]
      intro ft hmem
      rcases hall ft hmem with hd | hd <;> simp [hd]
    simp [ruleFails, hnull, hnone]

/-- Witness for `bare_element_uniqueness`: a second bare handler for tag
`mark` is rejected on a store already holding one. -/
theorem bare_element_uniqueness_witness :
    (registerFormatType (JVal.str "my-plugin/second")
        { tagName := some (JVal.str "mark"), className := some JVal.null,
          title := some (JVal.str "Second") } sampleBareStore).1 = none :=
  (bare_element_uniqueness (JVal.str "my-plugin/second")
      { tagName := some (JVal.str "mark"), className := some JVal.null,
        title := some (JVal.str "Second") } sampleBareStore rfl).1
    ⟨sampleBareFormat, by simp [sampleBareStore], rfl, rfl⟩

/-- A registered format type with the real class name `a-1`. -/
def sampleA1Format : Settings :=
  { name := JVal.str "my-plugin/a1", tagName := JVal.str "span",
    className := JVal.str "a-1", title := some (JVal.str "A1"),
    keywords := none, __experimentalCreatePrepareEditableTree := false,
    __experimentalCreateOnChangeEditableValue := false }

/-- C6: the class-name pattern rule never rejects the null sentinel, on a
real string accepts exactly the strings matching
`^[_a-zA-Z]+[a-zA-Z0-9-]*$`, rejects outright any descriptor whose merged
class name is `1abc` (leading digit), and passes on class name `a-1`. -/
theorem className_pattern_rule :
    (∀ (reg : Registry) (s : Settings), s.className = JVal.null →
        ruleFails reg s Rule.classNamePattern = false) ∧
    (∀ (reg : Registry) (s : Settings) (c : String), s.className = JVal.str c →
        (ruleFails reg s Rule.classNamePattern = false ↔
          testClassNameRegex c = true)) ∧
    (∀ (nameArg : JVal) (sIn : SettingsIn) (st : Store),
        (mergeSettings nameArg sIn).className = JVal.str "1abc" →
        (registerFormatType nameArg sIn st).1 = none) ∧
    (∀ (reg : Registry) (s : Settings), s.className = JVal.str "a-1" →
        ruleFails reg s Rule.classNamePattern = false) := by
  refine ⟨?_, ?_, ?_, ?_⟩
  · intro reg s h
    simp [ruleFails, h, jstr]
    decide
  · intro reg s c h
    simp [ruleFails, h, jstr]
  · intro nameArg sIn st h
    rcases hf : ruleOrder.find?
        (ruleFails st.registry (mergeSettings nameArg sIn)) with _ | r
    · exfalso
      have hx : testClassNameRegex "1abc" = false := by decide
      have hcp := List.find?_eq_none.mp hf Rule.classNamePattern (mem_ruleOrder _)
      simp [ruleFails, h, jstr, hx] at hcp
    · rw [registerFormatType_of_some hf]
  · intro reg s h
    simp [ruleFails, h, jstr]
    decide

/-- Witness for `className_pattern_rule`: class name `a-1` passes the
pattern check. -/
theorem className_pattern_rule_witness :
    ruleFails [] sampleA1Format Rule.classNamePattern = false :=
  className_pattern_rule.2.2.2 [] sampleA1Format rfl

/-- C7: a call whose settings carry 4 keywords is rejected, and the
keywords rule passes whenever exactly 3 keywords are present. -/
theorem keywords_limit_rule :
    (∀ (nameArg : JVal) (sIn : SettingsIn) (st : Store) (ks : List String),
        sIn.keywords = some ks → ks.length = 4 →
        (registerFormatType nameArg sIn st).1 = none) ∧
    (∀ (reg : Registry) (s : Settings) (ks : List String),
        s.keywords = some ks → ks.length = 3 →
        ruleFails reg s Rule.keywordsLimit = false) := by
  constructor
  · intro nameArg sIn st ks hks hlen
    rcases hf : ruleOrder.find?
        (ruleFails st.registry (mergeSettings nameArg sIn)) with _ | r
    · exfalso
      have hkwf := List.find?_eq_none.mp hf Rule.keywordsLimit (mem_ruleOrder _)
      have hv : (mergeSettings nameArg sIn).keywords = some ks := by
        simp [mergeSettings, hks]
      simp [ruleFails, hv, hlen] at hkwf
    · rw [registerFormatType_of_some hf]
  · intro reg s ks hks hlen
    simp [ruleFails, hks, hlen]

/-- Witness for `keywords_limit_rule`: four keywords are rejected. -/
theorem keywords_limit_rule_witness :
    (registerFormatType (JVal.str "my-plugin/kw")
        { tagName := some (JVal.str "b"), className := some JVal.null,
          title := some (JVal.str "KW"),
          keywords := some ["one", "two", "three", "four"] } emptyStore).1 = none :=
  keywords_limit_rule.1 (JVal.str "my-plugin/kw")
    { tagName := some (JVal.str "b"), className := some JVal.null,
      title := some (JVal.str "KW"),
      keywords := some ["one", "two", "three", "four"] } emptyStore
    ["one", "two", "three", "four"] rfl rfl

/-- C10: when the caller's settings object itself carries a `name` field,
that value overrides the positional argument: the merged settings do not
depend on the positional name, so validation, the duplicate check, the
logged diagnostics, the registry write, and the cache allocation are all
driven by the settings-supplied name, and a successfully returned
descriptor carries it. -/
theorem settings_name_overrides (a b : JVal) (sIn : SettingsIn) (st : Store) (v : JVal)
    (h : sIn.name = some v) :
    (mergeSettings a sIn).name = v ∧
    mergeSettings a sIn = mergeSettings b sIn ∧
    (registerFormatType a sIn st).1 = (registerFormatType b sIn st).1 ∧
    (registerFormatType a sIn st).2.registry =
      (registerFormatType b sIn st).2.registry ∧
    (registerFormatType a sIn st).2.log = (registerFormatType b sIn st).2.log ∧
    (registerFormatType a sIn st).2.caches =
      (registerFormatType b sIn st).2.caches ∧
    (∀ ft, (registerFormatType a sIn st).1 = some ft → ft.name = v) := by
  have hm : mergeSettings a sIn = mergeSettings b sIn := by
    simp [mergeSettings, h]
  have hname : (mergeSettings a sIn).name = v := by
    simp [mergeSettings, h]
  rcases hf : ruleOrder.find? (ruleFails st.registry (mergeSettings a sIn)) with _ | r
  · have hfb : ruleOrder.find? (ruleFails st.registry (mergeSettings b sIn)) = none := by
      rw [← hm]
      exact hf
    rw [registerFormatType_of_none hf, registerFormatType_of_none hfb]
    refine ⟨hname, hm, by rw [hm], by rw [hm], rfl, rfl, ?_⟩
    intro ft hft
    simp only [Option.some.injEq] at hft
    rw [← hft]
    exact hname
  · have hfb : ruleOrder.find? (ruleFails st.registry (mergeSettings b sIn)) = some r := by
      rw [← hm]
      exact hf
    rw [registerFormatType_of_some hf, registerFormatType_of_some hfb]
    refine ⟨hname, hm, rfl, rfl, by rw [hm], rfl, ?_⟩
    intro ft hft
    simp at hft

/-- Witness for `settings_name_overrides`: the settings-supplied name
`my-plugin/real` wins over two different positional arguments. -/
theorem settings_name_overrides_witness :
    (mergeSettings (JVal.str "ignored/name")
        { name := some (JVal.str "my-plugin/real"),
          tagName := some (JVal.str "b"), className := some JVal.null,
          title := some (JVal.str "R") }).name = JVal.str "my-plugin/real" ∧
    mergeSettings (JVal.str "ignored/name")
        { name := some (JVal.str "my-plugin/real"),
          tagName := some (JVal.str "b"), className := some JVal.null,
          title := some (JVal.str "R") } =
      mergeSettings JVal.other
        { name := some (JVal.str "my-plugin/real"),
          tagName := some (JVal.str "b"), className := some JVal.null,
          title := some (JVal.str "R") } ∧
    (registerFormatType (JVal.str "ignored/name")
        { name := some (JVal.str "my-plugin/real"),
          tagName := some (JVal.str "b"), className := some JVal.null,
          title := some (JVal.str "R") } emptyStore).1 =
      (registerFormatType JVal.other
        { name := some (JVal.str "my-plugin/real"),
          tagName := some (JVal.str "b"), className := some JVal.null,
          title := some (JVal.str "R") } emptyStore).1 ∧
    (registerFormatType (JVal.str "ignored/name")
        { name := some (JVal.str "my-plugin/real"),
          tagName := some (JVal.str "b"), className := some JVal.null,
          title := some (JVal.str "R") } emptyStore).2.registry =
      (registerFormatType JVal.other
        { name := some (JVal.str "my-plugin/real"),
          tagName := some (JVal.str "b"), className := some JVal.null,
          title := some (JVal.str "R") } emptyStore).2.registry ∧
    (registerFormatType (JVal.str "ignored/name")
        { name := some (JVal.str "my-plugin/real"),
          tagName := some (JVal.str "b"), className := some JVal.null,
          title := some (JVal.str "R") } emptyStore).2.log =
      (registerFormatType JVal.other
        { name := some (JVal.str "my-plugin/real"),
          tagName := some (JVal.str "b"), className := some JVal.null,
          title := some (JVal.str "R") } emptyStore).2.log ∧
    (registerFormatType (JVal.str "ignored/name")
        { name := some (JVal.str "my-plugin/real"),
          tagName := some (JVal.str "b"), className := some JVal.null,
          title := some (JVal.str "R") } emptyStore).2.caches =
      (registerFormatType JVal.other
        { name := some (JVal.str "my-plugin/real"),
          tagName := some (JVal.str "b"), className := some JVal.null,
          title := some (JVal.str "R") } emptyStore).2.caches ∧
    (∀ ft,
      (registerFormatType (JVal.str "ignored/name")
          { name := some (JVal.str "my-plugin/real"),
            tagName := some (JVal.str "b"), className := some JVal.null,
            title := some (JVal.str "R") } emptyStore).1 = some ft →
        ft.name = JVal.str "my-plugin/real") :=
  settings_name_overrides (JVal.str "ignored/name") JVal.other
    { name := some (JVal.str "my-plugin/real"),
      tagName := some (JVal.str "b"), className := some JVal.null,
      title := some (JVal.str "R") }
    emptyStore (JVal.str "my-plugin/real") rfl

/-! ## Memoized function-stack builder -/

/-- A reference argument is valid when it denotes an existing array. -/
def ValidRef (st : MemoState) : Option Nat → Prop
  | none => True
  | some i => i < st.heap.length

/-- Builder-state invariant: every cache line points at an existing array
whose contents are the line's previous stack with its function appended,
and its key references an existing array. -/
def MemoWF (st : MemoState) : Prop :=
  ∀ e ∈ st.cache, ValidRef st e.1.1 ∧ e.2 < st.heap.length ∧
    st.heap.getD e.2 [] = contentsOf st e.1.1 ++ [e.1.2]

theorem cacheLookup_mem {c : List ((Option Nat × Nat) × Nat)}
    {q : Option Nat × Nat} {v : Nat}
    (h : cacheLookup c q = some v) : (q, v) ∈ c := by
  induction c with
  | nil => simp [cacheLookup] at h
  | cons e rest ih =>
      obtain ⟨k, w⟩ := e
      simp only [cacheLookup] at h
      by_cases hk : k = q
      · rw [if_pos hk] at h
        subst hk
        obtain rfl : w = v := by simpa using h
        exact List.mem_cons_self _ _
      · rw [if_neg hk] at h
        exact List.mem_cons_of_mem _ (ih h)

theorem cacheLookup_append_of_none {c : List ((Option Nat × Nat) × Nat)}
    {q : Option Nat × Nat} (h : cacheLookup c q = none)
    (e : (Option Nat × Nat) × Nat) :
    cacheLookup (c ++ [e]) q = if e.1 = q then some e.2 else none := by
  induction c with
  | nil =>
      obtain ⟨k, w⟩ := e
      simp [cacheLookup]
  | cons f rest ih =>
      obtain ⟨k, w⟩ := f
      simp only [cacheLookup] at h
      simp only [List.cons_append, cacheLookup]
      by_cases hk : k = q
      · rw [if_pos hk] at h
        exact absurd h (by simp)
      · rw [if_neg hk] at h
        rw [if_neg hk]
        exact ih h

theorem cacheLookup_eq_none_iff {c : List ((Option Nat × Nat) × Nat)}
    {q : Option Nat × Nat} :
    cacheLookup c q = none ↔ q ∉ c.map Prod.fst := by
  induction c with
  | nil => simp [cacheLookup]
  | cons e rest ih =>
      obtain ⟨k, w⟩ := e
      by_cases hk : k = q
      · subst hk
        simp [cacheLookup]
      · simp [cacheLookup, hk, ih, Ne.symm hk]

theorem contentsOf_new {st : MemoState} {x : List Nat}
    {cache' : List ((Option Nat × Nat) × Nat)} :
    contentsOf { heap := st.heap ++ [x], cache := cache' }
      (some st.heap.length) = x := by
  simp only [contentsOf]
  rw [List.getD_append_right _ _ _ _ (le_refl _)]
  simp [List.getD]

/-- C8: the memoized function-stack builder returns an array whose
contents are the previous stack with the new function appended; calling
it again with identical arguments returns the same array identity and
leaves the builder state untouched; and a call with different, not yet
cached arguments yields a distinct, independently allocated array. -/
theorem functionStack_memoized_spec (st : MemoState) (p : Option Nat) (f : Nat)
    (hwf : MemoWF st) :
    contentsOf (getFunctionStackMemoized st p f).2
        (some (getFunctionStackMemoized st p f).1) =
      contentsOf st p ++ [f] ∧
    getFunctionStackMemoized (getFunctionStackMemoized st p f).2 p f =
      ((getFunctionStackMemoized st p f).1, (getFunctionStackMemoized st p f).2) ∧
    ∀ p' f', (p, f) ≠ (p', f') →
      cacheLookup (getFunctionStackMemoized st p f).2.cache (p', f') = none →
      (getFunctionStackMemoized (getFunctionStackMemoized st p f).2 p' f').1 ≠
        (getFunctionStackMemoized st p f).1 := by
  rcases hc : cacheLookup st.cache (p, f) with _ | id
  · have hres : getFunctionStackMemoized st p f =
        (st.heap.length,
          { heap := st.heap ++ [contentsOf st p ++ [f]],
            cache := st.cache ++ [((p, f), st.heap.length)] }) := by
      simp [getFunctionStackMemoized, hc]
    refine ⟨?_, ?_, ?_⟩
    · rw [hres]
      exact contentsOf_new
    · rw [hres]
      have hl : cacheLookup (st.cache ++ [((p, f), st.heap.length)]) (p, f) =
          some st.heap.length := by
        rw [cacheLookup_append_of_none hc]
        simp
      simp [getFunctionStackMemoized, hl]
    · intro p' f' hne hl
      rw [hres] at hl ⊢
      simp only at hl
      simp [getFunctionStackMemoized, hl]
  · have hres : getFunctionStackMemoized st p f = (id, st) := by
      simp [getFunctionStackMemoized, hc]
    have hwfe := hwf _ (cacheLookup_mem hc)
    refine ⟨?_, ?_, ?_⟩
    · rw [hres]
      simpa [contentsOf] using hwfe.2.2
    · rw [hres]
      exact hres
    · intro p' f' hne hl
      rw [hres] at hl ⊢
      simp only [getFunctionStackMemoized, hl]
      have := hwfe.2.1
      omega

/-- Witness for `functionStack_memoized_spec` on a fresh builder with an
undefined previous stack and function identity 0. -/
theorem functionStack_memoized_spec_witness :
    contentsOf (getFunctionStackMemoized initMemo none 0).2
        (some (getFunctionStackMemoized initMemo none 0).1) =
      contentsOf initMemo none ++ [0] ∧
    getFunctionStackMemoized (getFunctionStackMemoized initMemo none 0).2 none 0 =
      ((getFunctionStackMemoized initMemo none 0).1,
        (getFunctionStackMemoized initMemo none 0).2) ∧
    ∀ p' f', ((none : Option Nat), 0) ≠ (p', f') →
      cacheLookup (getFunctionStackMemoized initMemo none 0).2.cache (p', f') = none →
      (getFunctionStackMemoized (getFunctionStackMemoized initMemo none 0).2 p' f').1 ≠
        (getFunctionStackMemoized initMemo none 0).1 :=
  functionStack_memoized_spec initMemo none 0
    (by intro e he; simp [initMemo] at he)

/-- The argument-pair keys currently holding a line in a builder cache. -/
def cacheKeys (m : MemoState) : List (Option Nat × Nat) := m.cache.map Prod.fst

/-- C9 counterexample: the memoization cache is not a single process-wide
cache shared by all registrations; after two successful registrations the
process state holds two builder caches, one created by each call. -/
theorem memo_cache_not_processwide :
    ((registerFormatType (JVal.str "my-plugin/fmt-b")
        { tagName := some (JVal.str "em"), className := some JVal.null,
          title := some (JVal.str "B") }
        (registerFormatType (JVal.str "my-plugin/fmt-a")
          { tagName := some (JVal.str "mark"),
            className := some (JVal.str "fmt-a"),
            title := some (JVal.str "A") } emptyStore).2).2).caches.length = 2 ∧
    ¬ ((registerFormatType (JVal.str "my-plugin/fmt-b")
        { tagName := some (JVal.str "em"), className := some JVal.null,
          title := some (JVal.str "B") }
        (registerFormatType (JVal.str "my-plugin/fmt-a")
          { tagName := some (JVal.str "mark"),
            className := some (JVal.str "fmt-a"),
            title := some (JVal.str "A") } emptyStore).2).2).caches.length ≤ 1 := by
  decide

/-- C9 amended: each call to `registerFormatType` that passes validation
creates its own fresh memoization cache (one per successful registration,
none on failure); within one builder, a call never removes existing cache
lines, and distinct keys keep at most one line each. -/
theorem memo_cache_per_registration :
    (∀ (nameArg : JVal) (sIn : SettingsIn) (st : Store),
        (registerFormatType nameArg sIn st).2.caches =
          st.caches ++
            (if (registerFormatType nameArg sIn st).1.isSome then [initMemo]
             else [])) ∧
    (∀ (m : MemoState) (p : Option Nat) (f : Nat) (e : (Option Nat × Nat) × Nat),
        e ∈ m.cache → e ∈ (getFunctionStackMemoized m p f).2.cache) ∧
    (∀ (m : MemoState) (p : Option Nat) (f : Nat),
        (cacheKeys m).Nodup → (cacheKeys (getFunctionStackMemoized m p f).2).Nodup) := by
  refine ⟨?_, ?_, ?_⟩
  · intro nameArg sIn st
    rcases hf : ruleOrder.find?
        (ruleFails st.registry (mergeSettings nameArg sIn)) with _ | r
    · rw [registerFormatType_of_none hf]
      simp
    · rw [registerFormatType_of_some hf]
      simp
  · intro m p f e he
    rcases hc : cacheLookup m.cache (p, f) with _ | id
    · simp only [getFunctionStackMemoized, hc]
      exact List.mem_append_left _ he
    · simp only [getFunctionStackMemoized, hc]
      exact he
  · intro m p f hnd
    rcases hc : cacheLookup m.cache (p, f) with _ | id
    · have hnotin := cacheLookup_eq_none_iff.mp hc
      have hkeys : cacheKeys (getFunctionStackMemoized m p f).2 =
          cacheKeys m ++ [(p, f)] := by
        simp [getFunctionStackMemoized, hc, cacheKeys]
      rw [hkeys, List.nodup_append]
      refine ⟨hnd, List.nodup_singleton _, ?_⟩
      intro a ha hb
      rw [List.mem_singleton] at hb
      subst hb
      exact hnotin ha
    · simpa [getFunctionStackMemoized, hc] using hnd

/-- Witness for `memo_cache_per_registration` at concrete inputs: a
successful registration appends one fresh cache, and builder calls on a
concrete one-line cache preserve its line and key distinctness. -/
theorem memo_cache_per_registration_witness :
    ((registerFormatType (JVal.str "my-plugin/w9")
        { tagName := some (JVal.str "b"), className := some JVal.null,
          title := some (JVal.str "W") } emptyStore).2.caches =
      emptyStore.caches ++
        (if (registerFormatType (JVal.str "my-plugin/w9")
            { tagName := some (JVal.str "b"), className := some JVal.null,
              title := some (JVal.str "W") } emptyStore).1.isSome then [initMemo]
         else [])) ∧
    ((((none : Option Nat), 0), 0) ∈
      (getFunctionStackMemoized
        { heap := [[0]], cache := [((none, 0), 0)] } none 0).2.cache) ∧
    (cacheKeys (getFunctionStackMemoized
        { heap := [[0]], cache := [((none, 0), 0)] } none 1).2).Nodup :=
  ⟨memo_cache_per_registration.1 (JVal.str "my-plugin/w9")
      { tagName := some (JVal.str "b"), className := some JVal.null,
        title := some (JVal.str "W") } emptyStore,
    memo_cache_per_registration.2.1
      { heap := [[0]], cache := [((none, 0), 0)] } none 0 (((none, 0)), 0)
      (by decide),
    memo_cache_per_registration.2.2
      { heap := [[0]], cache := [((none, 0), 0)] } none 1 (by decide)⟩
